import Mathlib

/-!
Verification of the streaming confusion-area accumulation and metric
aggregation of `deploy/python/infer_benchmark.py` (PaddleSeg).

The script's own logic (the `test_dataset` loop, `main`, `parse_args`) is
embedded from the source.  The metric helpers it calls
(`paddleseg.utils.metrics.calculate_area` / `mean_iou` / `accuracy` /
`kappa`) live elsewhere in the repository; they are modelled from the
spec, as marked on each definition.
-/

namespace InferBenchmark

/-- A 2-D grid of class indices: one inner list per row, flattened by
`pixels`.  Embeds the 2-D integer tensors of the script. -/
abbrev Grid := List (List Nat)

/-- The flattened pixel sequence of a grid. -/
def Grid.pixels (g : Grid) : List Nat := g.flatten

/-- Position-wise pairs (predictedClass, groundTruthClass) of a sample. -/
def pixelPairs (pred gt : Grid) : List (Nat × Nat) :=
  List.zip pred.pixels gt.pixels

/-- Modelled from the spec: `paddleseg.utils.metrics.calculate_area` is not
in the benchmark source file.  Per the spec, only pixels whose ground truth
differs from `ignoreIndex` are considered; per class `c` it counts the
pixels with `predicted = c ∧ groundTruth = c` (intersect), `predicted = c`
(predicted area) and `groundTruth = c` (label area).  Returns the triple
(intersectArea, predictedArea, labelArea), each of length `numClasses`. -/
def calculate_area (pred gt : Grid) (numClasses ignoreIndex : Nat) :
    List Nat × List Nat × List Nat :=
  let ps := (pixelPairs pred gt).filter (fun pq => pq.2 ≠ ignoreIndex)
  ((List.range numClasses).map
      (fun c => (ps.filter (fun pq => pq.1 = c ∧ pq.2 = c)).length),
   (List.range numClasses).map (fun c => (ps.filter (fun pq => pq.1 = c)).length),
   (List.range numClasses).map (fun c => (ps.filter (fun pq => pq.2 = c)).length))

/-- The three running per-class pixel-area count vectors of the evaluation
loop (`intersect_area_all`, `pred_area_all`, `label_area_all`). -/
structure AreaCounts where
  intersect : List Nat
  predicted : List Nat
  label : List Nat
  deriving Repr, DecidableEq

/-- The initial running sums.  The source initializes them to the scalar
`0`; the first tensor addition broadcasts it, so the behaviourally equal
embedding is the zero vector of length `numClasses`. -/
def zeroCounts (numClasses : Nat) : AreaCounts :=
  ⟨List.replicate numClasses 0, List.replicate numClasses 0,
   List.replicate numClasses 0⟩

/-- Element-wise sum of two count vectors (tensor addition). -/
def addVec (a b : List Nat) : List Nat := List.zipWith (· + ·) a b

/-- One dataset sample: a predicted label map and a ground-truth label map. -/
structure Sample where
  pred : Grid
  gt : Grid
  deriving Repr, DecidableEq

/-- One accumulation step of the loop (source lines 161-169): compute the
three per-sample area vectors and add them to the running sums. -/
def accumulate (numClasses ignoreIndex : Nat) (st : AreaCounts) (s : Sample) :
    AreaCounts :=
  let areas := calculate_area s.pred s.gt numClasses ignoreIndex
  ⟨addVec st.intersect areas.1, addVec st.predicted areas.2.1,
   addVec st.label areas.2.2⟩

/-- The whole accumulation pass of an evaluation run, starting from the
zero counts. -/
def runAccumulate (numClasses ignoreIndex : Nat) (samples : List Sample) :
    AreaCounts :=
  samples.foldl (accumulate numClasses ignoreIndex) (zeroCounts numClasses)

/-- The IoU denominator of class `c`: `predicted[c] + label[c] - intersect[c]`,
computed in `ℚ` (the counts are tensors of machine integers; the invariant
`intersect ≤ min predicted label` keeps the value non-negative). -/
def iouDenom (intersect predicted label : List Nat) (c : Nat) : ℚ :=
  (predicted.getD c 0 : ℚ) + (label.getD c 0 : ℚ) - (intersect.getD c 0 : ℚ)

/-- Per-class IoU: `intersect[c] / (predicted[c] + label[c] - intersect[c])`
when the denominator is nonzero, else `0`. -/
def classIoU (intersect predicted label : List Nat) (c : Nat) : ℚ :=
  if iouDenom intersect predicted label c = 0 then 0
  else (intersect.getD c 0 : ℚ) / iouDenom intersect predicted label c

/-- The classes whose IoU denominator is nonzero; only these enter the mean. -/
def validClasses (intersect predicted label : List Nat) : List Nat :=
  (List.range intersect.length).filter
    (fun c => iouDenom intersect predicted label c ≠ 0)

/-- Modelled from the spec: `paddleseg.utils.metrics.mean_iou` is not in the
benchmark source file.  Returns the per-class IoU vector (zero-denominator
classes defined as `0`) and the arithmetic mean over the classes whose
denominator is nonzero. -/
def mean_iou (intersect predicted label : List Nat) : List ℚ × ℚ :=
  ((List.range intersect.length).map (classIoU intersect predicted label),
   if (validClasses intersect predicted label).length = 0 then 0
   else ((validClasses intersect predicted label).map
          (classIoU intersect predicted label)).sum /
        ((validClasses intersect predicted label).length : ℚ))

/-- Per-class accuracy: `intersect[c] / predicted[c]` when `predicted[c] ≠ 0`,
else `0`. -/
def classAcc (intersect predicted : List Nat) (c : Nat) : ℚ :=
  if predicted.getD c 0 = 0 then 0
  else (intersect.getD c 0 : ℚ) / (predicted.getD c 0 : ℚ)

/-- Modelled from the spec: `paddleseg.utils.metrics.accuracy` is not in the
benchmark source file.  Returns the per-class accuracy vector and the
overall accuracy `sum(intersect) / sum(predicted)`. -/
def accuracy (intersect predicted : List Nat) : List ℚ × ℚ :=
  ((List.range intersect.length).map (classAcc intersect predicted),
   (intersect.sum : ℚ) / (predicted.sum : ℚ))

/-- Expected agreement of Cohen's kappa:
`sum(predicted[c] * label[c]) / totalArea²` with `totalArea = sum(label)`. -/
def expectedAgreement (predicted label : List Nat) : ℚ :=
  let num : Nat := (List.zipWith (· * ·) predicted label).sum
  (num : ℚ) / ((label.sum : ℚ) * (label.sum : ℚ))

/-- Observed agreement of Cohen's kappa: `sum(intersect) / totalArea`. -/
def observedAgreement (intersect label : List Nat) : ℚ :=
  (intersect.sum : ℚ) / (label.sum : ℚ)

/-- Modelled from the spec: `paddleseg.utils.metrics.kappa` is not in the
benchmark source file.  Cohen's kappa from the aggregated confusion areas,
defined as `0` when `expectedAgreement = 1`. -/
def kappa (intersect predicted label : List Nat) : ℚ :=
  if expectedAgreement predicted label = 1 then 0
  else (observedAgreement intersect label - expectedAgreement predicted label) /
        (1 - expectedAgreement predicted label)

/-- A sample together with the wall-clock durations of the per-sample phases
of the loop body (source lines 147-171): input reshape, host-to-device copy,
`predictor.run()`, device-to-host copy, postprocessing. -/
structure TimedSample extends Sample where
  reshapeTime : ℚ
  copyFromTime : ℚ
  runTime : ℚ
  copyToTime : ℚ
  postTime : ℚ
  deriving Repr, DecidableEq

/-- The loop-carried state: the wall clock, the running `total_time`, and the
three running count vectors. -/
structure LoopState where
  clock : ℚ
  totalTime : ℚ
  counts : AreaCounts
  deriving Repr, DecidableEq

/-- One iteration of the evaluation loop (source lines 147-171).  The clock
advances through each phase; `start_time` is read after the input copy and
`end_time` right after `predictor.run()`, so `total_time` grows by exactly
the duration of `predictor.run()`. -/
def loopStep (numClasses ignoreIndex : Nat) (st : LoopState) (s : TimedSample) :
    LoopState :=
  let t0 := st.clock + s.reshapeTime + s.copyFromTime
  let startTime := t0
  let t1 := t0 + s.runTime
  let endTime := t1
  let t2 := t1 + s.copyToTime + s.postTime
  { clock := t2,
    totalTime := st.totalTime + (endTime - startTime),
    counts := accumulate numClasses ignoreIndex st.counts s.toSample }

/-- The whole evaluation loop, from zero counts and zero `total_time`. -/
def runLoop (numClasses ignoreIndex : Nat) (start : ℚ)
    (samples : List TimedSample) : LoopState :=
  samples.foldl (loopStep numClasses ignoreIndex) ⟨start, 0, zeroCounts numClasses⟩

/-- The summary report of `test_dataset` (source lines 173-184). -/
structure EvalSummary where
  classIoUVec : List ℚ
  miou : ℚ
  classAccVec : List ℚ
  acc : ℚ
  kap : ℚ
  avgTime : ℚ
  deriving Repr, DecidableEq

/-- Runtime faults of the embedded script fragment. -/
inductive EvalError where
  | zeroDivision
  deriving Repr, DecidableEq

/-- Python division: raising `ZeroDivisionError` on a zero denominator. -/
def pyDiv (a b : ℚ) : Except EvalError ℚ :=
  if b = 0 then .error .zeroDivision else .ok (a / b)

/-- `DatasetPredictor.test_dataset` (source lines 141-184): run the loop,
derive the metrics from the final counts, and divide `total_time` by the
dataset length — the one unguarded division of the script. -/
def test_dataset (numClasses ignoreIndex : Nat) (start : ℚ)
    (samples : List TimedSample) : Except EvalError EvalSummary :=
  let fin := runLoop numClasses ignoreIndex start samples
  let im := mean_iou fin.counts.intersect fin.counts.predicted fin.counts.label
  let ia := accuracy fin.counts.intersect fin.counts.predicted
  let k := kappa fin.counts.intersect fin.counts.predicted fin.counts.label
  match pyDiv fin.totalTime (samples.length : ℚ) with
  | .error e => .error e
  | .ok avg => .ok ⟨im.1, im.2, ia.1, ia.2, k, avg⟩

/-- Observable program phases of one invocation, in order of occurrence. -/
inductive Event where
  | loadModel
  | buildDataset
  | runInference
  | fatalError
  deriving Repr, DecidableEq

/-- `parse_args` (source lines 34-115): `--config`, `--dataset_type` and
`--dataset_path` are declared `required=True`, so argparse exits before
`main` whenever one is absent from the command line. -/
def parse_args (cfg dataset_type dataset_path : Option String) :
    Except String (String × String) :=
  match cfg, dataset_type, dataset_path with
  | some _, some dt, some dp => .ok (dt, dp)
  | _, _, _ => .error "the following arguments are required"

/-- `main` (source lines 187-192) as the list of phases the run reaches:
`DatasetPredictor(args)` is constructed — loading the model — before the
truthiness check of `dataset_type` and `dataset_path`; an empty string is
falsy, so the check then raises `RuntimeError`. -/
def mainTrace (dataset_type dataset_path : String)
    (datasetEvents : List Event) : List Event :=
  Event.loadModel ::
    (if dataset_type ≠ "" ∧ dataset_path ≠ "" then datasetEvents
     else [Event.fatalError])

/-- The phases `test_dataset` reaches: dataset construction, then one
inference per sample. -/
def testDatasetTrace (numSamples : Nat) : List Event :=
  Event.buildDataset :: List.replicate numSamples Event.runInference

/-- One whole invocation of the script: argparse first (no phase of `main`
runs when it fails), then `main`. -/
def runProgram (cfg dataset_type dataset_path : Option String)
    (numSamples : Nat) : List Event :=
  match parse_args cfg dataset_type dataset_path with
  | .error _ => []
  | .ok (dt, dp) => mainTrace dt dp (testDatasetTrace numSamples)

/-! ### Helper lemmas -/

/-- Filtering with a stronger predicate keeps at most as many elements. -/
lemma length_filter_mono {α : Type} (l : List α) (p q : α → Bool)
    (h : ∀ x, p x = true → q x = true) :
    (l.filter p).length ≤ (l.filter q).length := by
  induction l with
  | nil => simp
  | cons a l ih =>
    rw [List.filter_cons, List.filter_cons]
    by_cases hp : p a = true
    · rw [if_pos hp, if_pos (h a hp)]
      simpa using ih
    · rw [if_neg hp]
      split
      · exact Nat.le_succ_of_le ih
      · exact ih

/-- `getD` of an element-wise sum of equal-length vectors. -/
lemma addVec_getD (a b : List Nat) (h : a.length = b.length) (c : Nat) :
    (addVec a b).getD c 0 = a.getD c 0 + b.getD c 0 := by
  induction a generalizing b c with
  | nil =>
    cases b with
    | nil => simp [addVec]
    | cons y ys => simp at h
  | cons x xs ih =>
    cases b with
    | nil => simp at h
    | cons y ys =>
      cases c with
      | zero => simp [addVec]
      | succ c =>
        simp only [addVec, List.zipWith_cons_cons, List.getD_cons_succ]
        exact ih ys (by simpa using h) c

/-- Length of an element-wise sum of equal-length vectors. -/
lemma addVec_length (a b : List Nat) (h : a.length = b.length) :
    (addVec a b).length = a.length := by
  simp [addVec, h]

/-- Element-wise sum is associative. -/
lemma addVec_assoc (a b c : List Nat) :
    addVec (addVec a b) c = addVec a (addVec b c) := by
  induction a generalizing b c with
  | nil => simp [addVec]
  | cons x xs ih =>
    cases b with
    | nil => simp [addVec]
    | cons y ys =>
      cases c with
      | nil => simp [addVec]
      | cons z zs =>
        simp only [addVec, List.zipWith_cons_cons] at ih ⊢
        rw [Nat.add_assoc]
        exact congrArg _ (ih ys zs)

/-- Adding the zero vector of matching length is the identity. -/
lemma addVec_replicate_zero (n : Nat) (b : List Nat) (h : b.length = n) :
    addVec (List.replicate n 0) b = b := by
  induction b generalizing n with
  | nil => subst h; simp [addVec]
  | cons y ys ih =>
    cases n with
    | zero => simp at h
    | succ n =>
      simp only [List.replicate_succ, addVec, List.zipWith_cons_cons, Nat.zero_add]
      exact congrArg _ (ih n (by simpa using h))

/-- `getD` of a map over `List.range`. -/
lemma getD_range_map {α : Type} (n : Nat) (f : Nat → α) (d : α) (c : Nat) :
    (((List.range n).map f).getD c d) = if c < n then f c else d := by
  by_cases hc : c < n
  · rw [if_pos hc, List.getD_eq_getElem?_getD, List.getElem?_map,
      List.getElem?_range hc]
    rfl
  · rw [if_neg hc]
    exact List.getD_eq_default _ _ (by simpa using Nat.le_of_not_lt hc)

/-- Length of the `calculate_area` vectors is `numClasses`. -/
lemma calculate_area_lengths (pred gt : Grid) (C ig : Nat) :
    (calculate_area pred gt C ig).1.length = C ∧
    (calculate_area pred gt C ig).2.1.length = C ∧
    (calculate_area pred gt C ig).2.2.length = C := by
  simp [calculate_area]

/-- Per-class entries of `calculate_area`, read with `getD`. -/
lemma calculate_area_getD (pred gt : Grid) (C ig c : Nat) :
    (calculate_area pred gt C ig).1.getD c 0 =
      (if c < C then
        (((pixelPairs pred gt).filter (fun pq => pq.2 ≠ ig)).filter
          (fun pq => pq.1 = c ∧ pq.2 = c)).length else 0) ∧
    (calculate_area pred gt C ig).2.1.getD c 0 =
      (if c < C then
        (((pixelPairs pred gt).filter (fun pq => pq.2 ≠ ig)).filter
          (fun pq => pq.1 = c)).length else 0) ∧
    (calculate_area pred gt C ig).2.2.getD c 0 =
      (if c < C then
        (((pixelPairs pred gt).filter (fun pq => pq.2 ≠ ig)).filter
          (fun pq => pq.2 = c)).length else 0) := by
  refine ⟨?_, ?_, ?_⟩ <;> simp only [calculate_area] <;> rw [getD_range_map]

/-- Per sample, each class's intersect count is at most its predicted count
and at most its label count. -/
lemma calculate_area_le (pred gt : Grid) (C ig c : Nat) :
    (calculate_area pred gt C ig).1.getD c 0 ≤
        (calculate_area pred gt C ig).2.1.getD c 0 ∧
    (calculate_area pred gt C ig).1.getD c 0 ≤
        (calculate_area pred gt C ig).2.2.getD c 0 := by
  obtain ⟨h1, h2, h3⟩ := calculate_area_getD pred gt C ig c
  rw [h1, h2, h3]
  by_cases hc : c < C
  · simp only [if_pos hc]
    constructor
    · exact length_filter_mono _ _ _ (fun x hx => by
        simp only [decide_eq_true_eq] at hx ⊢
        exact hx.1)
    · exact length_filter_mono _ _ _ (fun x hx => by
        simp only [decide_eq_true_eq] at hx ⊢
        exact hx.2)
  · simp only [if_neg hc]
    exact ⟨Nat.le_refl 0, Nat.le_refl 0⟩

/-- The running-state invariant: the three vectors have length `C` and the
intersect entry of every class is bounded by its predicted and label
entries. -/
def CountsInv (C : Nat) (st : AreaCounts) : Prop :=
  st.intersect.length = C ∧ st.predicted.length = C ∧ st.label.length = C ∧
  ∀ c, st.intersect.getD c 0 ≤ st.predicted.getD c 0 ∧
       st.intersect.getD c 0 ≤ st.label.getD c 0

/-- One accumulation step preserves the running-state invariant. -/
lemma accumulate_inv (C ig : Nat) (st : AreaCounts) (s : Sample)
    (h : CountsInv C st) : CountsInv C (accumulate C ig st s) := by
  obtain ⟨hi, hp, hl, hle⟩ := h
  obtain ⟨ai, ap, al⟩ := calculate_area_lengths s.pred s.gt C ig
  refine ⟨?_, ?_, ?_, ?_⟩
  · rw [accumulate]; rw [addVec_length _ _ (by rw [hi, ai])]; exact hi
  · rw [accumulate]; rw [addVec_length _ _ (by rw [hp, ap])]; exact hp
  · rw [accumulate]; rw [addVec_length _ _ (by rw [hl, al])]; exact hl
  · intro c
    rw [accumulate]
    simp only
    rw [addVec_getD _ _ (by rw [hi, ai]) c, addVec_getD _ _ (by rw [hp, ap]) c,
      addVec_getD _ _ (by rw [hl, al]) c]
    obtain ⟨b1, b2⟩ := calculate_area_le s.pred s.gt C ig c
    exact ⟨Nat.add_le_add (hle c).1 b1, Nat.add_le_add (hle c).2 b2⟩

/-- The invariant is preserved along the whole fold. -/
lemma foldl_inv (C ig : Nat) (samples : List Sample) (st : AreaCounts)
    (h : CountsInv C st) :
    CountsInv C (samples.foldl (accumulate C ig) st) := by
  induction samples generalizing st with
  | nil => exact h
  | cons s rest ih => exact ih _ (accumulate_inv C ig st s h)

/-- The zero counts satisfy the invariant. -/
lemma zeroCounts_inv (C : Nat) : CountsInv C (zeroCounts C) := by
  refine ⟨by simp [zeroCounts], by simp [zeroCounts], by simp [zeroCounts], ?_⟩
  intro c
  constructor <;> simp [zeroCounts]

/-- C1: after any sequence of accumulate steps, every class's accumulated
intersect area is at most its predicted area and at most its label area. -/
theorem accumulated_intersect_le_areas (C ig : Nat) (samples : List Sample)
    (c : Nat) :
    (runAccumulate C ig samples).intersect.getD c 0 ≤
        (runAccumulate C ig samples).predicted.getD c 0 ∧
    (runAccumulate C ig samples).intersect.getD c 0 ≤
        (runAccumulate C ig samples).label.getD c 0 :=
  (foldl_inv C ig samples (zeroCounts C) (zeroCounts_inv C)).2.2.2 c

/-- Accumulating one sample into the zero counts yields exactly that
sample's area vectors. -/
lemma accumulate_zeroCounts (C ig : Nat) (s : Sample) :
    accumulate C ig (zeroCounts C) s =
      ⟨(calculate_area s.pred s.gt C ig).1,
       (calculate_area s.pred s.gt C ig).2.1,
       (calculate_area s.pred s.gt C ig).2.2⟩ := by
  obtain ⟨h1, h2, h3⟩ := calculate_area_lengths s.pred s.gt C ig
  simp only [accumulate, zeroCounts]
  rw [addVec_replicate_zero _ _ h1, addVec_replicate_zero _ _ h2,
    addVec_replicate_zero _ _ h3]

/-- C2: accumulating `[A, B]` in one pass equals accumulating `[A]` then `B`
into the same accumulator, and equals the element-wise sum of two
independent accumulations of `[A]` and `[B]`. -/
theorem accumulation_additive (C ig : Nat) (A B : Sample) :
    runAccumulate C ig [A, B] = accumulate C ig (runAccumulate C ig [A]) B ∧
    (runAccumulate C ig [A, B]).intersect =
      addVec (runAccumulate C ig [A]).intersect
        (runAccumulate C ig [B]).intersect ∧
    (runAccumulate C ig [A, B]).predicted =
      addVec (runAccumulate C ig [A]).predicted
        (runAccumulate C ig [B]).predicted ∧
    (runAccumulate C ig [A, B]).label =
      addVec (runAccumulate C ig [A]).label
        (runAccumulate C ig [B]).label := by
  obtain ⟨bi, bp, bl⟩ := calculate_area_lengths B.pred B.gt C ig
  refine ⟨rfl, ?_, ?_, ?_⟩ <;>
    simp only [runAccumulate, List.foldl_cons, List.foldl_nil, accumulate]
  · rw [show (zeroCounts C).intersect = List.replicate C 0 from rfl,
      addVec_replicate_zero _ _ bi]
  · rw [show (zeroCounts C).predicted = List.replicate C 0 from rfl,
      addVec_replicate_zero _ _ bp]
  · rw [show (zeroCounts C).label = List.replicate C 0 from rfl,
      addVec_replicate_zero _ _ bl]

/-- C3: on the spec's concrete scenario, the accumulated counts are
intersect `[1, 2]`, predicted `[1, 3]`, label `[2, 2]`; the per-class IoU is
`[1/2, 2/3]` with mean `7/12 ≈ 0.5833`, and the overall accuracy is `3/4`. -/
theorem scenario_concrete :
    runAccumulate 2 255 [⟨[[0, 1], [1, 1]], [[0, 1], [1, 0]]⟩] =
      AreaCounts.mk [1, 2] [1, 3] [2, 2] ∧
    (mean_iou [1, 2] [1, 3] [2, 2]).1 = [1 / 2, 2 / 3] ∧
    (mean_iou [1, 2] [1, 3] [2, 2]).2 = 7 / 12 ∧
    (5833 : ℚ) / 10000 < (mean_iou [1, 2] [1, 3] [2, 2]).2 ∧
    (mean_iou [1, 2] [1, 3] [2, 2]).2 < (5834 : ℚ) / 10000 ∧
    (accuracy [1, 2] [1, 3]).2 = 3 / 4 := by
  have d0 : iouDenom [1, 2] [1, 3] [2, 2] 0 = 2 := by norm_num [iouDenom]
  have d1 : iouDenom [1, 2] [1, 3] [2, 2] 1 = 3 := by norm_num [iouDenom]
  have c0 : classIoU [1, 2] [1, 3] [2, 2] 0 = 1 / 2 := by
    rw [classIoU, d0]; norm_num
  have c1 : classIoU [1, 2] [1, 3] [2, 2] 1 = 2 / 3 := by
    rw [classIoU, d1]; norm_num
  have hv : validClasses [1, 2] [1, 3] [2, 2] = [0, 1] := by
    simp only [validClasses, List.length_cons, List.length_nil]
    rw [show List.range (0 + 1 + 1) = [0, 1] by rfl]
    rw [List.filter_cons, List.filter_cons, List.filter_nil]
    rw [d0, d1]
    norm_num
  have hm : (mean_iou [1, 2] [1, 3] [2, 2]).2 = 7 / 12 := by
    rw [mean_iou]
    simp only [hv, List.length_cons, List.length_nil, List.map_cons,
      List.map_nil, List.sum_cons, List.sum_nil, c0, c1]
    norm_num
  refine ⟨by decide, ?_, hm, ?_, ?_, ?_⟩
  · rw [mean_iou]
    simp only [List.length_cons, List.length_nil]
    rw [show List.range (0 + 1 + 1) = [0, 1] by rfl]
    rw [List.map_cons, List.map_cons, List.map_nil, c0, c1]
  · rw [hm]; norm_num
  · rw [hm]; norm_num
  · rw [accuracy]
    norm_num

/-- C4: a pixel whose ground truth equals the ignore index contributes
nothing: accumulating a sample with such a pixel appended yields the same
counts as accumulating the sample without it. -/
theorem ignored_pixel_no_contribution (C ig : Nat) (st : AreaCounts)
    (pred gt : Grid) (p : Nat)
    (h : pred.pixels.length = gt.pixels.length) :
    accumulate C ig st ⟨pred ++ [[p]], gt ++ [[ig]]⟩ =
      accumulate C ig st ⟨pred, gt⟩ := by
  suffices hca : calculate_area (pred ++ [[p]]) (gt ++ [[ig]]) C ig =
      calculate_area pred gt C ig by
    simp only [accumulate, hca]
  have hz : pixelPairs (pred ++ [[p]]) (gt ++ [[ig]]) =
      pixelPairs pred gt ++ [(p, ig)] := by
    rw [pixelPairs, pixelPairs]
    rw [show Grid.pixels (pred ++ [[p]]) = pred.pixels ++ [p] by
      simp [Grid.pixels]]
    rw [show Grid.pixels (gt ++ [[ig]]) = gt.pixels ++ [ig] by
      simp [Grid.pixels]]
    rw [List.zip_append h]
    rfl
  rw [calculate_area, calculate_area, hz, List.filter_append]
  simp

/-- C4 witness: the pixel `(0, 255)` appended to a one-pixel sample leaves
the accumulated counts unchanged. -/
theorem ignored_pixel_no_contribution_witness :
    (Grid.pixels [[0]]).length = (Grid.pixels [[1]]).length ∧
    accumulate 1 255 (zeroCounts 1) ⟨[[0]] ++ [[0]], [[1]] ++ [[255]]⟩ =
      accumulate 1 255 (zeroCounts 1) ⟨[[0]], [[1]]⟩ :=
  ⟨by decide,
   ignored_pixel_no_contribution 1 255 (zeroCounts 1) [[0]] [[1]] 0 (by decide)⟩

/-- C5: `mean_iou` returns per class the IoU ratio when its denominator is
nonzero and `0` otherwise, and its mean multiplied by the number of
nonzero-denominator classes equals the sum of exactly those classes'
IoU values — zero-denominator classes are excluded from the mean, not
averaged in as `0`. -/
theorem mean_iou_spec (i p l : List Nat) (c : Nat) (hc : c < i.length) :
    (mean_iou i p l).1.getD c 0 =
      (if iouDenom i p l c = 0 then 0
       else (i.getD c 0 : ℚ) / iouDenom i p l c) ∧
    (mean_iou i p l).2 * ((validClasses i p l).length : ℚ) =
      ((validClasses i p l).map (classIoU i p l)).sum := by
  constructor
  · rw [mean_iou]
    simp only
    rw [getD_range_map, if_pos hc]
    rfl
  · rw [mean_iou]
    simp only
    by_cases hv : (validClasses i p l).length = 0
    · rw [if_pos hv]
      rw [List.length_eq_zero.mp hv]
      simp
    · rw [if_neg hv]
      exact div_mul_cancel₀ _ (Nat.cast_ne_zero.mpr hv)

/-- C5 witness: the per-class formula and the mean identity evaluated on the
counts of the concrete scenario, at class 0. -/
theorem mean_iou_spec_witness :
    (0 < ([1, 2] : List Nat).length) ∧
    ((mean_iou [1, 2] [1, 3] [2, 2]).1.getD 0 0 =
      (if iouDenom [1, 2] [1, 3] [2, 2] 0 = 0 then 0
       else ((([1, 2] : List Nat).getD 0 0 : ℚ) /
              iouDenom [1, 2] [1, 3] [2, 2] 0)) ∧
     (mean_iou [1, 2] [1, 3] [2, 2]).2 *
        ((validClasses [1, 2] [1, 3] [2, 2]).length : ℚ) =
      ((validClasses [1, 2] [1, 3] [2, 2]).map
          (classIoU [1, 2] [1, 3] [2, 2])).sum) :=
  ⟨by decide, mean_iou_spec [1, 2] [1, 3] [2, 2] 0 (by decide)⟩

/-- C6: the metric derivations are total: a per-class IoU or accuracy with a
zero denominator is defined as `0`, and kappa in the degenerate case
`expectedAgreement = 1` is `0` rather than a division fault. -/
theorem metrics_zero_denominator_total (i p l : List Nat) (c : Nat) :
    (iouDenom i p l c = 0 → classIoU i p l c = 0) ∧
    (p.getD c 0 = 0 → classAcc i p c = 0) ∧
    (expectedAgreement p l = 1 → kappa i p l = 0) :=
  ⟨fun h => by rw [classIoU, if_pos h],
   fun h => by rw [classAcc, if_pos h],
   fun h => by rw [kappa, if_pos h]⟩

/-- C6 witness: the all-zero class has IoU and accuracy `0`, and the
degenerate single-class run `intersect = predicted = label = [4]` has
`expectedAgreement = 1` and `kappa = 0`. -/
theorem metrics_zero_denominator_total_witness :
    (iouDenom [0] [0] [0] 0 = 0 ∧ classIoU [0] [0] [0] 0 = 0 ∧
     classAcc [0] [0] 0 = 0) ∧
    (expectedAgreement [4] [4] = 1 ∧ kappa [4] [4] [4] = 0) := by
  have h1 : iouDenom [0] [0] [0] 0 = 0 := by norm_num [iouDenom]
  have h3 : expectedAgreement [4] [4] = 1 := by norm_num [expectedAgreement]
  exact ⟨⟨h1, (metrics_zero_denominator_total [0] [0] [0] 0).1 h1,
          (metrics_zero_denominator_total [0] [0] [0] 0).2.1 (by simp)⟩,
         ⟨h3, (metrics_zero_denominator_total [4] [4] [4] 0).2.2 h3⟩⟩

/-- C7 counterexample: invoked with `--dataset_type` present but equal to
the empty string, the run loads the model first and only then reports the
fatal error, so the failure is not reported before all processing. -/
theorem missing_params_counterexample :
    runProgram (some "cfg") (some "") (some "path") 3 =
      [Event.loadModel, Event.fatalError] ∧
    Event.loadModel ∈ runProgram (some "cfg") (some "") (some "path") 3 := by
  have h : runProgram (some "cfg") (some "") (some "path") 3 =
      [Event.loadModel, Event.fatalError] := by
    simp [runProgram, parse_args, mainTrace]
  exact ⟨h, by rw [h]; simp⟩

/-- C7 amended: an absent required argument makes argparse exit before any
phase of `main` runs; a present-but-empty `dataset_type` or `dataset_path`
raises the fatal error only after the predictor construction (model
loading), though still before dataset construction and sample inference. -/
theorem missing_params_behavior (cfg dt dp : Option String) (n : Nat) :
    ((cfg = none ∨ dt = none ∨ dp = none) → runProgram cfg dt dp n = []) ∧
    (∀ c d q, cfg = some c → dt = some d → dp = some q →
      (d = "" ∨ q = "") →
      runProgram cfg dt dp n = [Event.loadModel, Event.fatalError] ∧
      Event.buildDataset ∉ runProgram cfg dt dp n ∧
      Event.runInference ∉ runProgram cfg dt dp n) := by
  constructor
  · rintro (rfl | rfl | rfl)
    · rfl
    · cases cfg <;> rfl
    · cases cfg <;> cases dt <;> rfl
  · rintro c d q rfl rfl rfl hdq
    have hcond : ¬(d ≠ "" ∧ q ≠ "") := by
      rcases hdq with rfl | rfl
      · exact fun hh => hh.1 rfl
      · exact fun hh => hh.2 rfl
    have h : runProgram (some c) (some d) (some q) n =
        [Event.loadModel, Event.fatalError] := by
      simp only [runProgram, parse_args, mainTrace, if_neg hcond]
    exact ⟨h, by rw [h]; simp, by rw [h]; simp⟩

/-- C7 amended witness: an absent `dataset_type` yields an empty trace; an
empty `dataset_type` yields model loading followed by the fatal error. -/
theorem missing_params_behavior_witness :
    runProgram (some "c") none (some "p") 2 = [] ∧
    (runProgram (some "c") (some "") (some "p") 2 =
        [Event.loadModel, Event.fatalError] ∧
      Event.buildDataset ∉ runProgram (some "c") (some "") (some "p") 2 ∧
      Event.runInference ∉ runProgram (some "c") (some "") (some "p") 2) :=
  ⟨(missing_params_behavior (some "c") none (some "p") 2).1
      (Or.inr (Or.inl rfl)),
   (missing_params_behavior (some "c") (some "") (some "p") 2).2
      "c" "" "p" rfl rfl rfl (Or.inl rfl)⟩

/-- C8: a zero-length dataset is not rejected up front: the run reaches the
unguarded average-timing division `total_time / len(dataset)` and faults
with a zero division instead of completing normally. -/
theorem empty_dataset_faults (C ig : Nat) (start : ℚ) :
    test_dataset C ig start [] = .error .zeroDivision := by
  simp [test_dataset, runLoop, pyDiv]

/-- The counts carried by the loop are the fold of `accumulate` over the
samples, from any starting state. -/
lemma runLoop_counts_aux (C ig : Nat) (st : LoopState)
    (samples : List TimedSample) :
    (samples.foldl (loopStep C ig) st).counts =
      (samples.map TimedSample.toSample).foldl (accumulate C ig) st.counts := by
  induction samples generalizing st with
  | nil => rfl
  | cons s rest ih =>
    rw [List.foldl_cons, List.map_cons, List.foldl_cons, ih]
    rfl

/-- The loop's `total_time` grows by exactly the `predictor.run()` duration
of each sample. -/
lemma runLoop_totalTime_aux (C ig : Nat) (st : LoopState)
    (samples : List TimedSample) :
    (samples.foldl (loopStep C ig) st).totalTime =
      st.totalTime + (samples.map TimedSample.runTime).sum := by
  induction samples generalizing st with
  | nil => simp
  | cons s rest ih =>
    rw [List.foldl_cons, ih]
    simp only [loopStep, List.map_cons, List.sum_cons]
    ring

/-- A nonempty sample list makes the final division succeed. -/
lemma length_cast_ne_zero {α : Type} (samples : List α) (h : samples ≠ []) :
    ((samples.length : ℚ)) ≠ 0 :=
  Nat.cast_ne_zero.mpr (List.length_pos.mpr h).ne'

/-- On a nonempty sample list the run completes with the summary derived
from the final loop state. -/
lemma test_dataset_ok (C ig : Nat) (start : ℚ) (samples : List TimedSample)
    (h : samples ≠ []) :
    test_dataset C ig start samples =
      .ok ⟨(mean_iou (runLoop C ig start samples).counts.intersect
              (runLoop C ig start samples).counts.predicted
              (runLoop C ig start samples).counts.label).1,
           (mean_iou (runLoop C ig start samples).counts.intersect
              (runLoop C ig start samples).counts.predicted
              (runLoop C ig start samples).counts.label).2,
           (accuracy (runLoop C ig start samples).counts.intersect
              (runLoop C ig start samples).counts.predicted).1,
           (accuracy (runLoop C ig start samples).counts.intersect
              (runLoop C ig start samples).counts.predicted).2,
           kappa (runLoop C ig start samples).counts.intersect
              (runLoop C ig start samples).counts.predicted
              (runLoop C ig start samples).counts.label,
           (runLoop C ig start samples).totalTime / (samples.length : ℚ)⟩ := by
  have hlen := length_cast_ne_zero samples h
  simp only [test_dataset, pyDiv, if_neg hlen]

/-- C9: the run starts from zero count vectors of length `numClasses` (the
state before the first sample), each loop iteration performs exactly one
accumulate step on the running counts, and the summary metrics are derived
from the final counts. -/
theorem counts_lifecycle (C ig : Nat) (start : ℚ)
    (samples : List TimedSample) :
    (runLoop C ig start []).counts = zeroCounts C ∧
    (zeroCounts C).intersect = List.replicate C 0 ∧
    (zeroCounts C).predicted = List.replicate C 0 ∧
    (zeroCounts C).label = List.replicate C 0 ∧
    (∀ st s, (loopStep C ig st s).counts =
      accumulate C ig st.counts s.toSample) ∧
    (runLoop C ig start samples).counts =
      runAccumulate C ig (samples.map TimedSample.toSample) ∧
    (samples ≠ [] → ∃ sm, test_dataset C ig start samples = .ok sm ∧
      sm.miou = (mean_iou (runLoop C ig start samples).counts.intersect
        (runLoop C ig start samples).counts.predicted
        (runLoop C ig start samples).counts.label).2 ∧
      sm.acc = (accuracy (runLoop C ig start samples).counts.intersect
        (runLoop C ig start samples).counts.predicted).2 ∧
      sm.kap = kappa (runLoop C ig start samples).counts.intersect
        (runLoop C ig start samples).counts.predicted
        (runLoop C ig start samples).counts.label) := by
  refine ⟨rfl, rfl, rfl, rfl, fun st s => rfl, ?_, ?_⟩
  · rw [runLoop, runAccumulate, runLoop_counts_aux]
  · intro h
    exact ⟨_, test_dataset_ok C ig start samples h, rfl, rfl, rfl⟩

/-- C9 witness: on a one-sample dataset the run completes and its summary
fields equal the metrics of the final counts. -/
theorem counts_lifecycle_witness :
    ([⟨⟨[[0]], [[0]]⟩, 1, 1, 1, 1, 1⟩] : List TimedSample) ≠ [] ∧
    (∃ sm, test_dataset 1 255 0 [⟨⟨[[0]], [[0]]⟩, 1, 1, 1, 1, 1⟩] = .ok sm ∧
      sm.miou = (mean_iou
        (runLoop 1 255 0 [⟨⟨[[0]], [[0]]⟩, 1, 1, 1, 1, 1⟩]).counts.intersect
        (runLoop 1 255 0 [⟨⟨[[0]], [[0]]⟩, 1, 1, 1, 1, 1⟩]).counts.predicted
        (runLoop 1 255 0 [⟨⟨[[0]], [[0]]⟩, 1, 1, 1, 1, 1⟩]).counts.label).2 ∧
      sm.acc = (accuracy
        (runLoop 1 255 0 [⟨⟨[[0]], [[0]]⟩, 1, 1, 1, 1, 1⟩]).counts.intersect
        (runLoop 1 255 0 [⟨⟨[[0]], [[0]]⟩, 1, 1, 1, 1, 1⟩]).counts.predicted).2 ∧
      sm.kap = kappa
        (runLoop 1 255 0 [⟨⟨[[0]], [[0]]⟩, 1, 1, 1, 1, 1⟩]).counts.intersect
        (runLoop 1 255 0 [⟨⟨[[0]], [[0]]⟩, 1, 1, 1, 1, 1⟩]).counts.predicted
        (runLoop 1 255 0 [⟨⟨[[0]], [[0]]⟩, 1, 1, 1, 1, 1⟩]).counts.label) :=
  ⟨by simp,
   (counts_lifecycle 1 255 0 [⟨⟨[[0]], [[0]]⟩, 1, 1, 1, 1, 1⟩]).2.2.2.2.2.2
      (by simp)⟩

/-- C10: the loop's `total_time` is the sum of the `predictor.run()`
durations alone — reshaping, host/device copies and postprocessing advance
the clock outside the timed interval — and the reported average latency is
that sum divided by the number of samples. -/
theorem average_latency_run_only (C ig : Nat) (start : ℚ)
    (samples : List TimedSample) :
    (runLoop C ig start samples).totalTime =
      (samples.map TimedSample.runTime).sum ∧
    (samples ≠ [] → ∃ sm, test_dataset C ig start samples = .ok sm ∧
      sm.avgTime = (samples.map TimedSample.runTime).sum /
        (samples.length : ℚ)) := by
  have ht : (runLoop C ig start samples).totalTime =
      (samples.map TimedSample.runTime).sum := by
    rw [runLoop, runLoop_totalTime_aux]
    simp
  refine ⟨ht, fun h => ?_⟩
  refine ⟨_, test_dataset_ok C ig start samples h, ?_⟩
  show (runLoop C ig start samples).totalTime / (samples.length : ℚ) =
    (samples.map TimedSample.runTime).sum / (samples.length : ℚ)
  rw [ht]

/-- C10 witness: a one-sample run whose phases last 1, 2, 5, 3 and 4 time
units reports an average latency of exactly the run duration 5. -/
theorem average_latency_run_only_witness :
    ([⟨⟨[[0]], [[0]]⟩, 1, 2, 5, 3, 4⟩] : List TimedSample) ≠ [] ∧
    (∃ sm, test_dataset 1 255 0 [⟨⟨[[0]], [[0]]⟩, 1, 2, 5, 3, 4⟩] = .ok sm ∧
      sm.avgTime =
        (([⟨⟨[[0]], [[0]]⟩, 1, 2, 5, 3, 4⟩] : List TimedSample).map
            TimedSample.runTime).sum /
          (([⟨⟨[[0]], [[0]]⟩, 1, 2, 5, 3, 4⟩] : List TimedSample).length : ℚ)) :=
  ⟨by simp,
   (average_latency_run_only 1 255 0 [⟨⟨[[0]], [[0]]⟩, 1, 2, 5, 3, 4⟩]).2
      (by simp)⟩

end InferBenchmark
